import Mathlib

/-!
Verification of the claude-skills repository (dremio_export.py and
sqlserver_view_export.py) against its natural-language specification.

The Python functions relevant to the claims are shallowly embedded as
executable Lean definitions.  Network interaction is modelled by passing the
server's responses as a function argument; `sys.exit` error paths become
explicit constructors of the outcome types; loops whose bound is not
structural are modelled with explicit fuel (the Python polling loop may
genuinely diverge when the clock never reaches the timeout, so a fuel
parameter is the honest model; for the pagination loop a provably
sufficient fuel is supplied).

Layout: all definitions first, then the theorems.
-/

/-! ## Definitions: wait_for_job (dremio_export.py lines 110-140) -/

/-- The JSON object returned by the job-status endpoint, as consumed by
`wait_for_job`: the `jobState` field (with the Python default "UNKNOWN"
already applied by the caller of this model) and the optional
`errorMessage` field. -/
structure JobData where
  jobState : String
  errorMessage : Option String
deriving DecidableEq

/-- `terminal_states = {"COMPLETED", "FAILED", "CANCELED"}` from
`wait_for_job`. -/
def terminal_states : List String := ["COMPLETED", "FAILED", "CANCELED"]

/-- Possible outcomes of `wait_for_job`: a normal return of the COMPLETED
snapshot, or one of the `sys.exit(1)` paths (job failed, job canceled,
timeout reporting the last observed state, transport/HTTP error while
polling), or divergence (fuel exhausted; the Python loop is unbounded). -/
inductive WaitOutcome where
  | completed (data : JobData)
  | exitFailed (msg : String)
  | exitCanceled
  | exitTimeout (timeout : Nat) (lastState : String)
  | exitPollError
  | diverged
deriving DecidableEq

/-- Shallow embedding of `wait_for_job` (dremio_export.py lines 110-140).
`polls k` is the response of the k-th GET of the job resource
(`none` models a transport failure or a non-OK HTTP status, both of which
`sys.exit`). `elapsed k` is the value of `time.time() - start` observed on
the k-th iteration.  Mirrors the source exactly: the terminal-state check
comes first, the timeout comparison `elapsed >= timeout` only afterwards. -/
def wait_for_job (polls : Nat → Option JobData) (elapsed : Nat → Nat)
    (timeout : Nat) : Nat → Nat → WaitOutcome
  | 0, _ => .diverged
  | fuel + 1, k =>
    match polls k with
    | none => .exitPollError
    | some data =>
      if data.jobState = "COMPLETED" then .completed data
      else if data.jobState = "FAILED" then
        .exitFailed (data.errorMessage.getD "Unknown error")
      else if data.jobState = "CANCELED" then .exitCanceled
      else if timeout ≤ elapsed k then .exitTimeout timeout data.jobState
      else wait_for_job polls elapsed timeout fuel (k + 1)

/-- The k-th poll observes a non-terminal state and the clock is still
strictly below the timeout, so the loop goes around again. -/
def pendingOk (polls : Nat → Option JobData) (elapsed : Nat → Nat)
    (timeout k : Nat) : Bool :=
  match polls k with
  | none => false
  | some data =>
    decide (¬ data.jobState ∈ terminal_states) && decide (elapsed k < timeout)

/-- A job that reports RUNNING on the first two polls and COMPLETED on every
later poll (concrete witness fixture). -/
def pollsRunThenDone : Nat → Option JobData := fun n =>
  if n < 2 then some ⟨"RUNNING", none⟩ else some ⟨"COMPLETED", none⟩

/-- A job that reports RUNNING forever (concrete witness fixture). -/
def pollsAlwaysRunning : Nat → Option JobData := fun _ => some ⟨"RUNNING", none⟩

/-- A clock advancing one second per poll iteration (witness fixture). -/
def elapsedOnePerPoll : Nat → Nat := fun n => n

/-! ## Definitions: fetch_all_results (dremio_export.py lines 143-181) -/

/-- One response of the result-paging endpoint, as consumed by
`fetch_all_results`: the optional `schema` field (already projected to its
list of `field["name"]` strings) and the `rows` list (row type abstract). -/
structure Page (α : Type) where
  schema : Option (List String)
  rows : List α
deriving DecidableEq

/-- A result server: maps `(offset, limit)` of a GET on the results
sub-resource to its response; `none` models a transport failure or a
non-OK HTTP status. -/
def Server (α : Type) : Type := Nat → Nat → Option (Page α)

/-- Outcome of `fetch_all_results`: the returned `(columns, all_rows)`
pair, or the `sys.exit(1)` path taken when a pagination fetch fails, or
divergence (fuel exhausted). -/
inductive FetchOutcome (α : Type) where
  | ok (columns : List String) (all_rows : List α)
  | exited
  | diverged
deriving DecidableEq

/-- Lines 162-164 of dremio_export.py: `if not columns and "schema" in
data: columns = [field["name"] for field in data["schema"]]`. -/
def updateColumns (columns : List String) (page : Page α) : List String :=
  if columns.isEmpty then
    match page.schema with
    | some names => names
    | none => columns
  else columns

/-- The `while offset <= max(row_count - 1, 0)` pagination loop of
`fetch_all_results` (dremio_export.py lines 146-169), with explicit fuel.
Note `Nat` subtraction makes `row_count - 1` equal to Python's
`max(row_count - 1, 0)`.  On each iteration: fetch the page (failure is
fatal), capture the schema if no columns are known yet, extend the
accumulated rows, stop if the page is short of `page_size` rows, else
advance the offset by `page_size`. -/
def fetch_loop (server : Server α) (row_count page_size : Nat) :
    Nat → Nat → List String → List α → FetchOutcome α
  | 0, _, _, _ => .diverged
  | fuel + 1, offset, columns, all_rows =>
    if offset ≤ row_count - 1 then
      match server offset page_size with
      | none => .exited
      | some page =>
        if page.rows.length < page_size then
          .ok (updateColumns columns page) (all_rows ++ page.rows)
        else fetch_loop server row_count page_size fuel
          (offset + page_size) (updateColumns columns page)
          (all_rows ++ page.rows)
    else .ok columns all_rows

/-- The column list extracted from a page's schema field, empty when the
schema is absent (lines 163-164 and 177-178 of dremio_export.py). -/
def schemaCols (page : Page α) : List String :=
  match page.schema with
  | some names => names
  | none => []

/-- The column list the zero-row best-effort fetch at offset 0, limit 1
recovers (lines 171-180 of dremio_export.py): empty when that fetch fails
or carries no schema. -/
def bestEffortCols (server : Server α) : List String :=
  match server 0 1 with
  | some page => schemaCols page
  | none => []

/-- Shallow embedding of `fetch_all_results` (dremio_export.py lines
143-181): run the pagination loop from offset 0 (fuel `row_count + 2`
suffices, see `fetch_loop_fuel_enough`), then — only when the column list
is still empty and `row_count` is 0 — make one best-effort fetch at
offset 0 with limit 1 purely to recover the schema, swallowing any failure
of that fetch. -/
def fetch_all_results (server : Server α) (row_count : Nat)
    (page_size : Nat := 500) : FetchOutcome α :=
  match fetch_loop server row_count page_size (row_count + 2) 0 [] [] with
  | .ok columns all_rows =>
    let columns' := if columns.isEmpty ∧ row_count = 0 then
        match server 0 1 with
        | some page =>
          match page.schema with
          | some names => names
          | none => columns
        | none => columns
      else columns
    .ok columns' all_rows
  | r => r

/-- The rows a well-behaved server stores for the page at `offset`: row
indices `offset, offset+1, ...`, a full page of `page_size` rows unless
fewer than `page_size` of the `row_count` rows remain. -/
def pageRowsAt (row : Nat → α) (row_count page_size offset : Nat) : List α :=
  (List.range (min page_size (row_count - offset))).map (fun i => row (offset + i))

/-- Witness fixture for C2 (corrected): the pagination fetch at limit 500
fails, while a best-effort fetch at limit 1 would succeed with schema
["c"]. -/
def serverLoopFetchFails : Server Nat := fun _ limit =>
  if limit = 500 then none else some ⟨some ["c"], []⟩

/-- Witness fixture for C2 (amended): a zero-row job whose pagination
fetch succeeds but carries no schema, while the limit-1 best-effort fetch
returns schema ["c"]. -/
def serverZeroRowsWithSchema : Server Nat := fun offset limit =>
  if limit = 1 ∧ offset = 0 then some ⟨some ["c"], []⟩ else some ⟨none, []⟩

/-- Witness fixture for C3: 3 rows (values 0,1,2), schema ["c"] on every
page, honest pages of size 2. -/
def serverThreeRows : Server Nat := fun offset limit =>
  if limit = 2 ∧ offset < 3 then
    some ⟨some ["c"], pageRowsAt (fun i => i) 3 2 offset⟩
  else none

/-- Witness fixture for C4: a server whose pages are always full (it even
ignores `row_count`), exercising the loop-bound termination argument. -/
def serverAlwaysFull : Server Nat := fun offset limit =>
  some ⟨none, (List.range limit).map (fun i => offset + i)⟩

/-! ## Definitions: _parse_path (dremio_export.py lines 217-243) -/

/-- The single-quote character (spelled numerically throughout). -/
def squote : Char := Char.ofNat 39

/-- Python str.split with a single-character separator: splits on every
occurrence, keeping empty pieces ("a.b".split(".") = ["a","b"],
"".split(".") = [""]). -/
def pySplit (sep : Char) : List Char → List (List Char)
  | [] => [[]]
  | c :: rest =>
    if c = sep then [] :: pySplit sep rest
    else
      match pySplit sep rest with
      | [] => [[c]]
      | s :: ss => (c :: s) :: ss

/-- Python str.strip(chars): remove every leading and trailing character
satisfying `p`. -/
def pyStrip (p : Char → Bool) (s : List Char) : List Char :=
  ((s.dropWhile p).reverse.dropWhile p).reverse

/-- `seg.strip().strip(dquote).strip(squote)` from the slash branch of
`_parse_path` (line 226). -/
def stripSegment (s : List Char) : List Char :=
  pyStrip (fun c => c == squote)
    (pyStrip (fun c => c == '"') (pyStrip Char.isWhitespace s))

/-- The quote-aware scanning loop of `_parse_path` (lines 228-241):
`in_quotes` toggles at each double quote; a dot outside quotes ends the
current segment (an empty current segment is dropped); every other
character, dots inside quotes included, is appended to the current
segment; a non-empty final segment is flushed at the end. -/
def parse_quoted (path : List Char) (in_quotes : Bool)
    (current : List Char) (segments : List (List Char)) :
    List (List Char) :=
  match path with
  | [] => if current.isEmpty then segments else segments ++ [current]
  | c :: rest =>
    if c = '"' then parse_quoted rest (!in_quotes) current segments
    else if c = '.' ∧ in_quotes = false then
      if current.isEmpty then parse_quoted rest in_quotes current segments
      else parse_quoted rest in_quotes [] (segments ++ [current])
    else parse_quoted rest in_quotes (current ++ [c]) segments

/-- Shallow embedding of `_parse_path` (dremio_export.py lines 217-243)
on the character list of the path: the slash branch, the quote-scanner
branch, then plain dot splitting. -/
def parse_path (path : List Char) : List (List Char) :=
  if '/' ∈ path then
    ((pySplit '/' path).filter
      (fun seg => !(pyStrip Char.isWhitespace seg).isEmpty)).map stripSegment
  else if '"' ∈ path then parse_quoted path false [] []
  else pySplit '.' path

/-- `_parse_path` as a String-to-String-list function. -/
def parse_path_str (path : String) : List String :=
  (parse_path path.data).map String.mk

/-- Renders a segment list in the quoted surface notation
"seg1"."seg2"..."segn". -/
def renderQuoted : List (List Char) → List Char
  | [] => []
  | [s] => '"' :: s ++ ['"']
  | s :: rest => '"' :: s ++ '"' :: '.' :: renderQuoted rest

/-! ## Definitions: write_csv (dremio_export.py lines 189-195) -/

/-- A result row as consumed by `write_csv`: a JSON object mapping field
names to values (`none` models a SQL NULL). -/
def Row : Type := List (String × Option String)

/-- Dict lookup in a row object: `none` when the field is absent,
`some v` when present with (possibly null) value `v`. -/
def rowGet (r : Row) (k : String) : Option (Option String) :=
  (r.find? (fun p => p.1 == k)).map (fun p => p.2)

/-- The cell csv.DictWriter (fieldnames=columns, extrasaction="ignore")
emits for column `k` of row `r`: the row's value when present, empty for
an absent field (restval None) or a null value. -/
def dictWriterField (r : Row) (k : String) : String :=
  match rowGet r k with
  | some (some v) => v
  | some none => ""
  | none => ""

/-- One `writer.writerow(row)` line: the row projected onto the
fieldnames, in fieldname order. -/
def dictWriterRow (fieldnames : List String) (r : Row) : List String :=
  fieldnames.map (dictWriterField r)

/-- Shallow embedding of `write_csv` (dremio_export.py lines 189-195):
the emitted CSV as a list of records (one list of cell strings per
line): `writeheader()` emits the column names, then one `writerow` per
row. -/
def write_csv (columns : List String) (rows : List Row) :
    List (List String) :=
  [columns] ++ rows.map (dictWriterRow columns)

/-- Witness fixture rows for the CSV sink: a row with an extra field "x"
not in the schema, and a row with a null value and a missing field. -/
def rowWithExtra : Row := [("a", some "1"), ("x", some "9")]

def rowWithNull : Row := [("b", none)]

def csvRowsW : List Row := [rowWithExtra, rowWithNull]

/-! ## Definitions: run_batch_export (sqlserver_view_export.py 366-403) -/

/-- One iteration of the batch loop (lines 384-391): the item is
attempted (appended to the attempt log) and the success or failure
counter is bumped according to `export_view_to_csv`'s boolean result. -/
def batchStep (result : α → Bool) (st : List α × Nat × Nat) (v : α) :
    List α × Nat × Nat :=
  (st.1 ++ [v],
    if result v then st.2.1 + 1 else st.2.1,
    if result v then st.2.2 else st.2.2 + 1)

/-- The counting loop of `run_batch_export`: the attempted items in
order, the success count and the failure count. -/
def run_batch_export (result : α → Bool) (view_names : List α) :
    List α × Nat × Nat :=
  view_names.foldl (batchStep result) ([], 0, 0)

/-- Lines 402-403: `if failed_count > 0: sys.exit(1)`; exit code 0
otherwise. -/
def batchExitCode (result : α → Bool) (view_names : List α) : Nat :=
  if 0 < (run_batch_export result view_names).2.2 then 1 else 0

/-- Witness fixture: per-view export outcome where only "dbo.Bad"
fails. -/
def exportOutcomeW : String → Bool := fun v => v != "dbo.Bad"

def batchViewsW : List String := ["dbo.A", "dbo.Bad", "dbo.B"]

/-! ## Definitions: load_config (dremio_export.py 61-72 and
sqlserver_view_export.py 70-85) -/

/-- A parsed .env mapping (the dict produced by parse_env_file, values
already quote-stripped). -/
def Env : Type := String → Option String

/-- `k not in env or not env[k]`: the key is absent or maps to the empty
string (the only falsy string). -/
def keyMissing (env : Env) (k : String) : Bool :=
  match env k with
  | none => true
  | some v => v == ""

/-- `missing = [k for k in required if k not in env or not env[k]]`. -/
def missingKeys (env : Env) (required : List String) : List String :=
  required.filter (keyMissing env)

/-- `required = ["DREMIO_BASE_URL", "DREMIO_API_KEY"]` (dremio). -/
def required_dremio : List String := ["DREMIO_BASE_URL", "DREMIO_API_KEY"]

/-- `required = ["SQL_SERVER", "SQL_DATABASE", "SQL_USER",
"SQL_PASSWORD"]` (sqlserver). -/
def required_sql : List String :=
  ["SQL_SERVER", "SQL_DATABASE", "SQL_USER", "SQL_PASSWORD"]

/-- Python str.rstrip("/"). -/
def rstripSlash (s : String) : String :=
  String.mk ((s.data.reverse.dropWhile (fun c => c == '/')).reverse)

/-- Shallow embedding of dremio_export.py's `load_config` (lines 61-72):
fatal error carrying the enumerated missing keys, else the env with the
base URL's trailing slashes stripped. -/
def load_config (env : Env) : Except (List String) Env :=
  if (missingKeys env required_dremio).isEmpty then
    .ok (fun k =>
      if k == "DREMIO_BASE_URL" then (env k).map rstripSlash else env k)
  else .error (missingKeys env required_dremio)

/-- Shallow embedding of sqlserver_view_export.py's `load_config` (lines
70-85): fatal error carrying the enumerated missing keys, else the env
with the three `setdefault` defaults applied (a present-but-empty value
is kept, exactly as `dict.setdefault` does). -/
def load_config_sql (env : Env) : Except (List String) Env :=
  if (missingKeys env required_sql).isEmpty then
    .ok (fun k =>
      match env k with
      | some v => some v
      | none =>
        if k == "SQL_PORT" then some "1433"
        else if k == "TRUST_SERVER_CERTIFICATE" then some "Yes"
        else if k == "OUTPUT_DIR" then some "./exports"
        else none)
  else .error (missingKeys env required_sql)

/-- Witness fixture env: DREMIO_API_KEY present but empty,
DREMIO_BASE_URL absent. -/
def envW : Env := fun k => if k == "DREMIO_API_KEY" then some "" else none

/-! ## Definitions: search_catalog SQL (dremio_export.py lines 308-318) -/

/-- Python str.lower modelled on the ASCII range: A-Z is mapped to a-z,
every other character is unchanged. -/
def lowerAscii (c : Char) : Char :=
  if 65 ≤ c.toNat ∧ c.toNat ≤ 90 then Char.ofNat (c.toNat + 32) else c

/-- `keyword.replace("'", "''")`: every single quote is doubled. -/
def escapeQuotes (s : List Char) : List Char :=
  s.flatMap (fun c => if c = squote then [squote, squote] else [c])

/-- `safe_keyword = keyword.replace("'", "''").lower()` (line 310). -/
def safe_keyword (s : List Char) : List Char :=
  (escapeQuotes s).map lowerAscii

/-- One LIKE pattern literal from lines 314-315: a quote, a percent, the
safe keyword, a percent, a quote. -/
def likePattern (kw : List Char) : List Char :=
  squote :: '%' :: safe_keyword kw ++ ['%', squote]

/-- The SQL statement built by `search_catalog` (lines 311-317), as its
character list. -/
def search_sql (kw : List Char) : List Char :=
  ("SELECT TABLE_SCHEMA, TABLE_NAME, TABLE_TYPE FROM INFORMATION_SCHEMA.\"TABLES\" WHERE LOWER(TABLE_NAME) LIKE ").data
  ++ likePattern kw
  ++ (" OR LOWER(TABLE_SCHEMA) LIKE ").data
  ++ likePattern kw
  ++ (" ORDER BY TABLE_SCHEMA, TABLE_NAME").data

/-! ## Theorems -/

theorem pendingOk_spec {polls : Nat → Option JobData} {elapsed : Nat → Nat}
    {timeout k : Nat} (h : pendingOk polls elapsed timeout k = true) :
    ∃ data, polls k = some data ∧ data.jobState ≠ "COMPLETED" ∧
      data.jobState ≠ "FAILED" ∧ data.jobState ≠ "CANCELED" ∧
      elapsed k < timeout := by
  unfold pendingOk at h
  cases hp : polls k with
  | none => rw [hp] at h; exact absurd h (by simp)
  | some data =>
    rw [hp] at h
    simp only [Bool.and_eq_true, decide_eq_true_eq, terminal_states,
      List.mem_cons, List.not_mem_nil, or_false, not_or] at h
    exact ⟨data, rfl, h.1.1, h.1.2.1, h.1.2.2, h.2⟩

/-- Stepping lemma: as long as every poll up to `d` steps ahead is
non-terminal and under the timeout, the loop just advances the poll index
and consumes one unit of fuel per iteration. -/
theorem wait_for_job_skip (polls : Nat → Option JobData) (elapsed : Nat → Nat)
    (timeout : Nat) :
    ∀ d i fuel, (∀ j, j < d → pendingOk polls elapsed timeout (i + j) = true) →
      wait_for_job polls elapsed timeout (d + fuel) i =
        wait_for_job polls elapsed timeout fuel (i + d) := by
  intro d
  induction d with
  | zero => intro i fuel _; simp
  | succ d ih =>
    intro i fuel hpend
    obtain ⟨data, hp, hc, hf, hca, ht⟩ :=
      pendingOk_spec (hpend 0 (Nat.succ_pos d))
    simp only [Nat.add_zero] at hp ht
    have hstep : wait_for_job polls elapsed timeout (d + fuel + 1) i =
        wait_for_job polls elapsed timeout (d + fuel) (i + 1) := by
      simp only [wait_for_job]
      rw [hp]
      simp only [hc, hf, hca, if_false]
      rw [if_neg (by omega)]
    have harr : d + 1 + fuel = d + fuel + 1 := by omega
    rw [harr, hstep, ih (i + 1) fuel (fun j hj => by
      have := hpend (j + 1) (by omega)
      rwa [show i + (j + 1) = i + 1 + j by omega] at this)]
    rw [show i + 1 + d = i + (d + 1) by omega]

/-- C1: for every job-state sequence whose k-th poll observes COMPLETED,
preceded by k polls that each observe a non-terminal state (any string
outside the terminal set, unrecognized ones included) while the clock is
still under the timeout, `wait_for_job` returns the COMPLETED snapshot and
takes none of the error-exit paths.  No bound is placed on `elapsed k`
itself: the terminal-state check precedes the timeout check inside an
iteration, so a job observed COMPLETED exactly at (or past) the timeout
boundary still succeeds. -/
theorem c1_wait_for_job_completed_returns_snapshot
    (polls : Nat → Option JobData) (elapsed : Nat → Nat) (timeout k : Nat)
    (data : JobData)
    (hk : polls k = some data) (hc : data.jobState = "COMPLETED")
    (hpre : ∀ j, j < k → pendingOk polls elapsed timeout j = true) :
    ∀ fuel, k < fuel →
      wait_for_job polls elapsed timeout fuel 0 = .completed data := by
  intro fuel hf
  obtain ⟨m, rfl⟩ : ∃ m, fuel = k + (m + 1) := ⟨fuel - k - 1, by omega⟩
  rw [wait_for_job_skip polls elapsed timeout k 0 (m + 1)
    (fun j hj => by simpa using hpre j hj)]
  simp only [Nat.zero_add, wait_for_job]
  rw [hk]
  simp [hc]

/-- C1 witness: a job that is RUNNING for two polls and then COMPLETED,
with a clock that reaches the timeout (2s) exactly at the COMPLETED
observation, still returns the COMPLETED snapshot. -/
theorem c1_witness :
    wait_for_job pollsRunThenDone elapsedOnePerPoll 2 3 0 =
      .completed ⟨"COMPLETED", none⟩ :=
  c1_wait_for_job_completed_returns_snapshot pollsRunThenDone elapsedOnePerPoll
    2 2 ⟨"COMPLETED", none⟩ (by decide) (by decide)
    (by decide) 3 (by decide)

/-- C5: for every job-state sequence that never reaches a terminal state
within the timeout window, `wait_for_job` exits with a timeout error that
reports the last observed non-terminal state: each of the first k polls
observes a non-terminal state with the clock still under the timeout, and
on the k-th poll the elapsed wall-clock time has reached `timeout`, so the
loop exits fatally, reporting the state observed on that k-th poll. -/
theorem c5_wait_for_job_timeout_reports_last_state
    (polls : Nat → Option JobData) (elapsed : Nat → Nat) (timeout k : Nat)
    (data : JobData)
    (hk : polls k = some data)
    (hnt : ¬ data.jobState ∈ terminal_states)
    (hel : timeout ≤ elapsed k)
    (hpre : ∀ j, j < k → pendingOk polls elapsed timeout j = true) :
    ∀ fuel, k < fuel →
      wait_for_job polls elapsed timeout fuel 0 =
        .exitTimeout timeout data.jobState := by
  intro fuel hf
  obtain ⟨m, rfl⟩ : ∃ m, fuel = k + (m + 1) := ⟨fuel - k - 1, by omega⟩
  rw [wait_for_job_skip polls elapsed timeout k 0 (m + 1)
    (fun j hj => by simpa using hpre j hj)]
  simp only [Nat.zero_add, wait_for_job]
  rw [hk]
  simp only [terminal_states, List.mem_cons, List.not_mem_nil, or_false,
    not_or] at hnt
  simp [hnt.1, hnt.2.1, hnt.2.2, hel]

/-- C5 witness: a job that stays RUNNING with a one-second-per-poll clock
and a 2-second timeout exits with a timeout error reporting RUNNING. -/
theorem c5_witness :
    wait_for_job pollsAlwaysRunning elapsedOnePerPoll 2 3 0 =
      .exitTimeout 2 "RUNNING" :=
  c5_wait_for_job_timeout_reports_last_state pollsAlwaysRunning
    elapsedOnePerPoll 2 2 ⟨"RUNNING", none⟩ (by decide) (by decide)
    (by decide) (by decide) 3 (by decide)

theorem updateColumns_of_ne_nil {columns : List String} (page : Page α)
    (h : columns ≠ []) : updateColumns columns page = columns := by
  unfold updateColumns
  rw [if_neg]
  simp [List.isEmpty_iff, h]

theorem updateColumns_nil (page : Page α) :
    updateColumns [] page = schemaCols page := by
  unfold updateColumns schemaCols
  cases page.schema <;> simp

/-- Fuel adequacy for the pagination loop: with a positive page size the
loop needs at most `row_count - 1 - offset + 2` more iterations, since the
offset strictly increases each time around. -/
theorem fetch_loop_fuel_enough (server : Server α) (row_count page_size : Nat)
    (hP : 1 ≤ page_size) :
    ∀ fuel offset columns all_rows,
      (row_count - 1 - offset + 2 ≤ fuel ∨
        (row_count - 1 < offset ∧ 1 ≤ fuel)) →
      fetch_loop server row_count page_size fuel offset columns all_rows ≠
        .diverged := by
  intro fuel
  induction fuel with
  | zero => intro offset columns all_rows h; omega
  | succ fuel ih =>
    intro offset columns all_rows h
    simp only [fetch_loop]
    by_cases hoff : offset ≤ row_count - 1
    · rw [if_pos hoff]
      cases hsrv : server offset page_size with
      | none => simp
      | some page =>
        simp only []
        by_cases hshort : page.rows.length < page_size
        · rw [if_pos hshort]; simp
        · rw [if_neg hshort]
          apply ih
          by_cases hnext : offset + page_size ≤ row_count - 1
          · left; omega
          · right; omega
    · rw [if_neg hoff]; simp

/-- C4: with any `row_count` and a positive `page_size`, the pagination
loop of `fetch_all_results` terminates (it never exhausts the supplied
fuel), and its stepping behaviour is exactly: return immediately once
`offset` exceeds `max(row_count - 1, 0)`; on a fetched page shorter than
`page_size`, stop immediately after incorporating that page, even when
`offset` has not reached `row_count - 1`; on a full page, continue with
the offset advanced by `page_size`. -/
theorem c4_fetch_loop_terminates
    (server : Server α) (row_count page_size : Nat) (hP : 1 ≤ page_size) :
    fetch_all_results server row_count page_size ≠ .diverged ∧
    (∀ fuel offset columns all_rows, row_count - 1 < offset →
      fetch_loop server row_count page_size (fuel + 1) offset columns
        all_rows = .ok columns all_rows) ∧
    (∀ fuel offset columns all_rows page, offset ≤ row_count - 1 →
      server offset page_size = some page → page.rows.length < page_size →
      fetch_loop server row_count page_size (fuel + 1) offset columns
        all_rows = .ok (updateColumns columns page) (all_rows ++ page.rows)) ∧
    (∀ fuel offset columns all_rows page, offset ≤ row_count - 1 →
      server offset page_size = some page → ¬ page.rows.length < page_size →
      fetch_loop server row_count page_size (fuel + 1) offset columns
        all_rows = fetch_loop server row_count page_size fuel
          (offset + page_size) (updateColumns columns page)
          (all_rows ++ page.rows)) := by
  refine ⟨?_, ?_, ?_, ?_⟩
  · unfold fetch_all_results
    cases hres : fetch_loop server row_count page_size (row_count + 2) 0 [] []
      with
    | ok c r => simp
    | exited => simp
    | diverged =>
      exact absurd hres (fetch_loop_fuel_enough server row_count page_size hP
        (row_count + 2) 0 [] [] (Or.inl (by omega)))
  · intro fuel offset columns all_rows hoff
    simp only [fetch_loop]
    rw [if_neg (by omega)]
  · intro fuel offset columns all_rows page hoff hsrv hshort
    simp only [fetch_loop]
    rw [if_pos hoff, hsrv]
    simp only []
    rw [if_pos hshort]
  · intro fuel offset columns all_rows page hoff hsrv hshort
    simp only [fetch_loop]
    rw [if_pos hoff, hsrv]
    simp only []
    rw [if_neg hshort]

/-- C4 witness: a server answering every request with a full page: the
pagination over 5 claimed rows with page size 2 terminates, and the loop
returns immediately at offset 6 > 4 = row_count - 1. -/
theorem c4_witness :
    fetch_all_results serverAlwaysFull 5 2 ≠ FetchOutcome.diverged ∧
    fetch_loop serverAlwaysFull 5 2 7 6 ["c"] [0] = .ok ["c"] [0] := by
  have h := c4_fetch_loop_terminates serverAlwaysFull 5 2 (by decide)
  exact ⟨h.1, h.2.1 6 6 ["c"] [0] (by decide)⟩

/-- C2 counterexample: `row_count = 0` with a server whose fetch at
offset 0, limit `page_size = 500` fails while the limit-1 fetch would
succeed with schema ["c"].  Contrary to the claim, a pagination-loop
iteration does run (the loop bound is `offset <= max(row_count-1,0)`,
which is `0 <= 0`), its failure is fatal rather than swallowed, so the
operation raises (exits) and returns no columns even though the
best-effort fetch would have succeeded with a schema. -/
theorem c2_counterexample :
    fetch_all_results serverLoopFetchFails 0 500 = FetchOutcome.exited ∧
    serverLoopFetchFails 0 1 = some ⟨some ["c"], []⟩ := by
  exact ⟨rfl, rfl⟩

/-- C2 amended: with `row_count = 0` and a positive page size, exactly one
pagination-loop iteration runs: a fetch at offset 0 with limit
`page_size`, whose failure is fatal (the operation exits).  If it
succeeds, its rows are returned, and its schema supplies the columns; only
when that yields an empty column list is the best-effort fetch at offset 0
with limit 1 consulted (its failure or lack of schema is swallowed,
leaving columns empty).  In particular the returned column list is
non-empty iff the loop page carries a non-empty schema or, failing that,
the best-effort fetch succeeds with a non-empty schema. -/
theorem c2_amended_zero_row_behavior (server : Server α) (page_size : Nat)
    (hP : 1 ≤ page_size) :
    fetch_all_results server 0 page_size =
      match server 0 page_size with
      | none => FetchOutcome.exited
      | some page =>
        FetchOutcome.ok
          (if (schemaCols page).isEmpty then bestEffortCols server
            else schemaCols page) page.rows := by
  cases hs : server 0 page_size with
  | none =>
    have hloop : fetch_loop server 0 page_size 2 0 [] [] = .exited := by
      simp only [fetch_loop]
      rw [if_pos (by omega), hs]
    simp [fetch_all_results, hloop]
  | some page =>
    have hloop : fetch_loop server 0 page_size 2 0 [] [] =
        .ok (schemaCols page) page.rows := by
      simp only [fetch_loop]
      rw [if_pos (by omega), hs]
      simp only []
      by_cases hshort : page.rows.length < page_size
      · rw [if_pos hshort, updateColumns_nil]
        simp
      · rw [if_neg hshort]
        rw [if_neg (show ¬ 0 + page_size ≤ 0 - 1 by omega), updateColumns_nil]
        simp
    simp only [fetch_all_results, hloop]
    simp only [eq_self_iff_true, and_true, List.nil_append]
    by_cases hemp : (schemaCols page).isEmpty
    · have hnil : schemaCols page = [] := by simpa [List.isEmpty_iff] using hemp
      rw [if_pos hemp, if_pos hemp, hnil]
      unfold bestEffortCols
      cases h1 : server 0 1 with
      | none => rfl
      | some page2 =>
        simp only []
        unfold schemaCols
        cases page2.schema <;> rfl
    · rw [if_neg hemp, if_neg hemp]

/-- C2 amended witness: a zero-row job whose pagination page has no
schema; the best-effort limit-1 fetch recovers schema ["c"] and the
operation completes with columns ["c"] and no rows. -/
theorem c2_witness :
    fetch_all_results serverZeroRowsWithSchema 0 500 =
      FetchOutcome.ok ["c"] ([] : List Nat) := by
  rw [c2_amended_zero_row_behavior serverZeroRowsWithSchema 500 (by decide)]
  rfl

theorem range_map_append0 (row : Nat → α) (a b : Nat) :
    (List.range a).map row ++
      (List.range b).map (fun i => row (a + i)) =
    (List.range (a + b)).map row := by
  rw [List.range_add, List.map_append, List.map_map]
  simp [Function.comp]

theorem range_map_shift_append (row : Nat → α) (offset a b : Nat) :
    (List.range a).map (fun i => row (offset + i)) ++
      (List.range b).map (fun i => row (offset + a + i)) =
    (List.range (a + b)).map (fun i => row (offset + i)) := by
  rw [List.range_add, List.map_append, List.map_map]
  simp [Function.comp, Nat.add_assoc]

theorem pageRowsAt_length (row : Nat → α) (row_count page_size offset : Nat) :
    (pageRowsAt row row_count page_size offset).length =
      min page_size (row_count - offset) := by
  simp [pageRowsAt]

/-- Once the column list is non-empty, a well-behaved server (each page
carries exactly `min page_size (row_count - offset)` rows) drives the
pagination loop to a normal return with the columns unchanged and every
remaining row, in ascending offset order, appended. -/
theorem fetch_loop_filled (server : Server α) (row_count page_size : Nat)
    (row : Nat → α) (schemaAt : Nat → Option (List String))
    (hR : 1 ≤ row_count) (hP : 1 ≤ page_size)
    (hsrv : ∀ o, o < row_count → server o page_size =
      some ⟨schemaAt o, pageRowsAt row row_count page_size o⟩) :
    ∀ fuel offset columns all_rows, columns ≠ [] → offset ≤ row_count →
      row_count - offset + 1 ≤ fuel →
      fetch_loop server row_count page_size fuel offset columns all_rows =
        .ok columns (all_rows ++
          (List.range (row_count - offset)).map (fun i => row (offset + i))) := by
  intro fuel
  induction fuel with
  | zero => intro offset columns all_rows _ _ h; omega
  | succ fuel ih =>
    intro offset columns all_rows hcols hofR hfuel
    rcases Nat.lt_or_ge offset row_count with hlt | hge
    · simp only [fetch_loop]
      rw [if_pos (by omega), hsrv offset hlt]
      simp only []
      rw [updateColumns_of_ne_nil _ hcols]
      have hlen := pageRowsAt_length row row_count page_size offset
      rcases Nat.lt_or_ge (row_count - offset) page_size with hsh | hfull
      · rw [if_pos (by rw [hlen]; omega)]
        congr 1
        congr 1
        simp [pageRowsAt, Nat.min_eq_right (by omega : row_count - offset ≤ page_size)]
      · rw [if_neg (by rw [hlen]; omega)]
        rw [ih (offset + page_size) columns _ hcols (by omega) (by omega)]
        congr 1
        rw [List.append_assoc]
        congr 1
        rw [show pageRowsAt row row_count page_size offset =
          (List.range page_size).map (fun i => row (offset + i)) by
            simp [pageRowsAt, Nat.min_eq_left hfull]]
        have h2 := range_map_shift_append row offset page_size
          (row_count - offset - page_size)
        rw [show page_size + (row_count - offset - page_size) =
          row_count - offset by omega] at h2
        rw [Nat.sub_sub] at h2
        exact h2
    · have heq : offset = row_count := by omega
      subst heq
      simp only [fetch_loop]
      rw [if_neg (by omega)]
      simp

/-- While the column list is still empty and the fetched pages (all of
them full pages, lying strictly before the first schema-bearing offset
`k0`) carry no usable schema, the loop just accumulates their rows and
advances to `k0`, consuming one unit of fuel per page. -/
theorem fetch_loop_no_schema_skip (server : Server α)
    (row_count page_size : Nat) (row : Nat → α)
    (schemaAt : Nat → Option (List String)) (k0 : Nat)
    (hP : 1 ≤ page_size)
    (hsrv : ∀ o, o < row_count → server o page_size =
      some ⟨schemaAt o, pageRowsAt row row_count page_size o⟩)
    (hk0R : k0 < row_count)
    (hnone : ∀ o, o < k0 → page_size ∣ o →
      schemaAt o = none ∨ schemaAt o = some []) :
    ∀ m offset all_rows f, offset + m * page_size = k0 → page_size ∣ offset →
      fetch_loop server row_count page_size (m + f) offset [] all_rows =
        fetch_loop server row_count page_size f k0 []
          (all_rows ++
            (List.range (k0 - offset)).map (fun i => row (offset + i))) := by
  intro m
  induction m with
  | zero =>
    intro offset all_rows f hoff _
    simp only [Nat.zero_mul, Nat.add_zero] at hoff
    subst hoff
    simp
  | succ m ih =>
    intro offset all_rows f hoff hdvd
    have hpos : 0 < (m + 1) * page_size := Nat.mul_pos (Nat.succ_pos m) hP
    have hofflt : offset < k0 := by omega
    have hlt : offset < row_count := lt_trans hofflt hk0R
    have hmul : (m + 1) * page_size = m * page_size + page_size :=
      Nat.succ_mul m page_size
    have hnext : offset + page_size ≤ k0 := by omega
    rw [show m + 1 + f = (m + f) + 1 by omega]
    simp only [fetch_loop]
    rw [if_pos (by omega), hsrv offset hlt]
    simp only []
    rw [updateColumns_nil]
    rw [show schemaCols
        (⟨schemaAt offset, pageRowsAt row row_count page_size offset⟩ :
          Page α) = [] by
      rcases hnone offset hofflt hdvd with h | h <;> simp [schemaCols, h]]
    have hlen := pageRowsAt_length row row_count page_size offset
    have hfull : page_size ≤ row_count - offset := by omega
    rw [if_neg (by rw [hlen]; omega)]
    rw [ih (offset + page_size) _ f (by omega) (dvd_add hdvd dvd_rfl)]
    congr 1
    rw [List.append_assoc]
    congr 1
    rw [show pageRowsAt row row_count page_size offset =
      (List.range page_size).map (fun i => row (offset + i)) by
        simp [pageRowsAt, Nat.min_eq_left hfull]]
    have h2 := range_map_shift_append row offset page_size
      (k0 - offset - page_size)
    rw [show page_size + (k0 - offset - page_size) = k0 - offset by omega]
      at h2
    rw [Nat.sub_sub] at h2
    exact h2

/-- C3: for every `row_count` R >= 1 and `page_size` P >= 1, against a
well-behaved server (the page at each offset o < R holds exactly
`min P (R - o)` of the R stored rows, in order), `fetch_all_results`
returns exactly the R stored rows, concatenated across pages in ascending
offset order with in-page order preserved, and the column list is the one
carried by the first fetched page bearing a (non-empty) schema: every
fetched offset before `k0` carries no usable schema and offset `k0`
carries `cols`. -/
theorem c3_fetch_all_results_exact_rows (server : Server α)
    (row_count page_size : Nat) (row : Nat → α)
    (schemaAt : Nat → Option (List String)) (k0 : Nat) (cols : List String)
    (hR : 1 ≤ row_count) (hP : 1 ≤ page_size)
    (hsrv : ∀ o, o < row_count → server o page_size =
      some ⟨schemaAt o, pageRowsAt row row_count page_size o⟩)
    (hk0 : k0 < row_count) (hdvd : page_size ∣ k0)
    (hnone : ∀ o, o < k0 → page_size ∣ o →
      schemaAt o = none ∨ schemaAt o = some [])
    (hk0schema : schemaAt k0 = some cols) (hcols : cols ≠ []) :
    fetch_all_results server row_count page_size =
      .ok cols ((List.range row_count).map row) := by
  obtain ⟨m, hm⟩ := hdvd
  have hmle : m ≤ k0 := hm ▸ Nat.le_mul_of_pos_left m hP
  have hloop : fetch_loop server row_count page_size (row_count + 2) 0 [] [] =
      .ok cols ((List.range row_count).map row) := by
    rw [show row_count + 2 = m + (row_count + 2 - m) by omega]
    rw [fetch_loop_no_schema_skip server row_count page_size row schemaAt k0
      hP hsrv hk0 hnone m 0 [] (row_count + 2 - m)
      (by have := Nat.mul_comm page_size m; omega) (dvd_zero _)]
    simp only [List.nil_append, Nat.sub_zero]
    obtain ⟨f, hf⟩ : ∃ f, row_count + 2 - m = f + 1 :=
      ⟨row_count + 1 - m, by omega⟩
    rw [hf]
    simp only [fetch_loop]
    rw [if_pos (by omega), hsrv k0 hk0]
    simp only []
    rw [updateColumns_nil]
    rw [show schemaCols
        (⟨schemaAt k0, pageRowsAt row row_count page_size k0⟩ : Page α) =
          cols by simp [schemaCols, hk0schema]]
    have hlen := pageRowsAt_length row row_count page_size k0
    rcases Nat.lt_or_ge (row_count - k0) page_size with hsh | hfull
    · rw [if_pos (by rw [hlen]; omega)]
      congr 1
      simp only [Nat.zero_add]
      rw [show pageRowsAt row row_count page_size k0 =
        (List.range (row_count - k0)).map (fun i => row (k0 + i)) by
          simp [pageRowsAt,
            Nat.min_eq_right (by omega : row_count - k0 ≤ page_size)]]
      have h2 := range_map_append0 row k0 (row_count - k0)
      rw [show k0 + (row_count - k0) = row_count by omega] at h2
      exact h2
    · rw [if_neg (by rw [hlen]; omega)]
      rw [fetch_loop_filled server row_count page_size row schemaAt hR hP
        hsrv f (k0 + page_size) cols _ hcols (by omega) (by omega)]
      congr 1
      simp only [Nat.zero_add]
      rw [List.append_assoc]
      rw [show pageRowsAt row row_count page_size k0 =
        (List.range page_size).map (fun i => row (k0 + i)) by
          simp [pageRowsAt, Nat.min_eq_left hfull]]
      have h2 := range_map_shift_append row k0 page_size
        (row_count - k0 - page_size)
      rw [show page_size + (row_count - k0 - page_size) = row_count - k0
        by omega] at h2
      rw [Nat.sub_sub] at h2
      rw [h2]
      have h3 := range_map_append0 row k0 (row_count - k0)
      rw [show k0 + (row_count - k0) = row_count by omega] at h3
      exact h3
  simp only [fetch_all_results, hloop]
  rw [if_neg (fun h => absurd h.2 (by omega))]

/-- C3 witness: 3 rows (0, 1, 2) paged with page size 2 against an honest
server carrying schema ["c"] on every page: the export returns columns
["c"] and exactly the rows [0, 1, 2]. -/
theorem c3_witness :
    fetch_all_results serverThreeRows 3 2 = FetchOutcome.ok ["c"] [0, 1, 2] := by
  have h := c3_fetch_all_results_exact_rows serverThreeRows 3 2 (fun i => i)
    (fun _ => some ["c"]) 0 ["c"] (by decide) (by decide) (by decide)
    (by decide) (by decide)
    (by intro o ho _; exact absurd ho (Nat.not_lt_zero o))
    rfl (by decide)
  rw [h]
  rfl

/-- Inside quotes, the scanner copies every non-quote character into the
current segment verbatim — dots and spaces included. -/
theorem parse_quoted_consume :
    ∀ (cs rest current : List Char) (acc : List (List Char)),
      (∀ c ∈ cs, c ≠ '"') →
      parse_quoted (cs ++ rest) true current acc =
        parse_quoted rest true (current ++ cs) acc := by
  intro cs
  induction cs with
  | nil => intro rest current acc _; simp
  | cons c cs ih =>
    intro rest current acc hq
    have hc : c ≠ '"' := hq c (List.mem_cons_self c cs)
    have step : parse_quoted ((c :: cs) ++ rest) true current acc =
        parse_quoted (cs ++ rest) true (current ++ [c]) acc := by
      simp [parse_quoted, hc]
    rw [step, ih rest (current ++ [c]) acc
      (fun x hx => hq x (List.mem_cons_of_mem c hx))]
    simp

theorem renderQuoted_no_slash :
    ∀ segs : List (List Char), (∀ s ∈ segs, '/' ∉ s) →
      '/' ∉ renderQuoted segs := by
  intro segs
  induction segs with
  | nil => intro _; simp [renderQuoted]
  | cons s rest ih =>
    intro h
    cases rest with
    | nil =>
      intro hmem
      simp only [renderQuoted] at hmem
      rcases List.mem_cons.mp hmem with h1 | h2
      · exact absurd h1 (by decide)
      rcases List.mem_append.mp h2 with h3 | h4
      · exact h s (by simp) h3
      · rcases List.mem_singleton.mp h4 with h5
        exact absurd h5 (by decide)
    | cons s2 rest2 =>
      intro hmem
      simp only [renderQuoted] at hmem
      rcases List.mem_cons.mp hmem with h1 | h2
      · exact absurd h1 (by decide)
      rcases List.mem_append.mp h2 with h3 | h4
      · exact h s (by simp) h3
      rcases List.mem_cons.mp h4 with h5 | h6
      · exact absurd h5 (by decide)
      rcases List.mem_cons.mp h6 with h7 | h8
      · exact absurd h7 (by decide)
      · exact ih (fun t ht => h t (by simp [ht])) h8

theorem renderQuoted_has_quote :
    ∀ segs : List (List Char), segs ≠ [] → '"' ∈ renderQuoted segs := by
  intro segs hne
  cases segs with
  | nil => exact absurd rfl hne
  | cons s rest =>
    cases rest with
    | nil => simp [renderQuoted]
    | cons s2 rest2 => simp [renderQuoted]

/-- The quote scanner inverts the quoted rendering: scanning
"s1"."s2"..."sn" recovers exactly the segments, for segments that are
non-empty and quote-free. -/
theorem parse_quoted_render :
    ∀ (segs : List (List Char)) (acc : List (List Char)),
      (∀ s ∈ segs, s ≠ [] ∧ '"' ∉ s) →
      parse_quoted (renderQuoted segs) false [] acc = acc ++ segs := by
  intro segs
  induction segs with
  | nil => intro acc _; simp [renderQuoted, parse_quoted]
  | cons s rest ih =>
    intro acc hprop
    obtain ⟨hs_ne, hs_nq⟩ := hprop s (by simp)
    have hq : ∀ c ∈ s, c ≠ '"' := fun c hc hcq => hs_nq (hcq ▸ hc)
    have hsE : s.isEmpty = false := by
      cases s with
      | nil => exact absurd rfl hs_ne
      | cons a as => rfl
    cases rest with
    | nil =>
      show parse_quoted ('"' :: (s ++ ['"'])) false [] acc = acc ++ [s]
      have step1 : parse_quoted ('"' :: (s ++ ['"'])) false [] acc =
          parse_quoted (s ++ ['"']) true [] acc := by
        simp [parse_quoted]
      have step3 : parse_quoted ['"'] true ([] ++ s) acc = acc ++ [s] := by
        simp [parse_quoted, hsE]
      rw [step1, parse_quoted_consume s ['"'] [] acc hq, step3]
    | cons s2 rest2 =>
      show parse_quoted
        ('"' :: (s ++ ('"' :: '.' :: renderQuoted (s2 :: rest2))))
        false [] acc = acc ++ s :: s2 :: rest2
      have step1 : parse_quoted
          ('"' :: (s ++ ('"' :: '.' :: renderQuoted (s2 :: rest2))))
          false [] acc =
          parse_quoted (s ++ ('"' :: '.' :: renderQuoted (s2 :: rest2)))
            true [] acc := by
        simp [parse_quoted]
      have step3 : parse_quoted
          ('"' :: '.' :: renderQuoted (s2 :: rest2)) true ([] ++ s) acc =
          parse_quoted (renderQuoted (s2 :: rest2)) false [] (acc ++ [s]) := by
        simp [parse_quoted, hsE]
      rw [step1,
        parse_quoted_consume s ('"' :: '.' :: renderQuoted (s2 :: rest2))
          [] acc hq,
        step3, ih (acc ++ [s]) (fun t ht => hprop t (by simp [ht]))]
      simp

/-- C6: catalog path parsing maps the three surface notations to the same
segment list — "a.b" and "a/b" both parse to ["a","b"], and the
quoted-dot notation parses "A B"."C.D" to ["A B", "C.D"] — and, in
general, parsing the quoted rendering of any non-empty list of non-empty
segments containing no double quote and no slash recovers exactly those
segments, so dots and spaces embedded inside quoted segments are
preserved verbatim (parsing is lossless with respect to embedded
dots). -/
theorem c6_parse_path_three_notations :
    parse_path_str "a.b" = ["a", "b"] ∧
    parse_path_str "a/b" = ["a", "b"] ∧
    parse_path_str "\"A B\".\"C.D\"" = ["A B", "C.D"] ∧
    (∀ segs : List (List Char), segs ≠ [] →
      (∀ s ∈ segs, s ≠ [] ∧ '"' ∉ s ∧ '/' ∉ s) →
      parse_path (renderQuoted segs) = segs) := by
  refine ⟨by decide, by decide, by decide, ?_⟩
  intro segs hne hprop
  unfold parse_path
  rw [if_neg (renderQuoted_no_slash segs (fun s hs => (hprop s hs).2.2))]
  rw [if_pos (renderQuoted_has_quote segs hne)]
  simpa using parse_quoted_render segs []
    (fun s hs => ⟨(hprop s hs).1, (hprop s hs).2.1⟩)

/-- C6 witness: the quoted rendering of ["My Space", "C.D"] — a segment
with an embedded space and one with an embedded dot — parses back to
exactly those two segments. -/
theorem c6_witness :
    parse_path (renderQuoted ["My Space".data, "C.D".data]) =
      ["My Space".data, "C.D".data] :=
  c6_parse_path_three_notations.2.2.2 ["My Space".data, "C.D".data]
    (by decide) (by decide)

/-- C7: the CSV sink writes exactly one header line holding the column
names in schema order, followed by exactly one line per row; each data
line projects only the known columns, in schema order (the i-th line is
the i-th row rendered cell by cell); the rendering of a row depends only
on its values at the schema columns, so fields absent from the schema are
dropped; and a schema column that is absent from the row or null renders
as the empty cell, while a present value is emitted verbatim. -/
theorem c7_write_csv_header_and_projection (columns : List String)
    (rows : List Row) :
    (write_csv columns rows).length = rows.length + 1 ∧
    (write_csv columns rows).head? = some columns ∧
    (∀ i r, rows[i]? = some r →
      (write_csv columns rows)[i + 1]? = some (dictWriterRow columns r) ∧
      (dictWriterRow columns r).length = columns.length) ∧
    (∀ r r' : Row, (∀ k ∈ columns, rowGet r k = rowGet r' k) →
      dictWriterRow columns r = dictWriterRow columns r') ∧
    (∀ (r : Row) (i : Nat) (k : String), columns[i]? = some k →
      ((rowGet r k = none ∨ rowGet r k = some none) →
        (dictWriterRow columns r)[i]? = some "") ∧
      (∀ v, rowGet r k = some (some v) →
        (dictWriterRow columns r)[i]? = some v)) := by
  refine ⟨by simp [write_csv], by simp [write_csv], ?_, ?_, ?_⟩
  · intro i r hr
    constructor
    · show (columns :: rows.map (dictWriterRow columns))[i + 1]? = _
      rw [List.getElem?_cons_succ, List.getElem?_map, hr]
      rfl
    · simp [dictWriterRow]
  · intro r r' hsame
    unfold dictWriterRow
    exact List.map_congr_left
      (fun k hk => by unfold dictWriterField; rw [hsame k hk])
  · intro r i k hik
    have hcell : (dictWriterRow columns r)[i]? =
        some (dictWriterField r k) := by
      unfold dictWriterRow
      rw [List.getElem?_map, hik]
      rfl
    constructor
    · intro hmiss
      rw [hcell]
      rcases hmiss with h | h <;> simp [dictWriterField, h]
    · intro v hv
      rw [hcell]
      simp [dictWriterField, hv]

/-- C7 witness: with schema [a, b], a row carrying an extra field x and a
value 1 for a renders as ["1", ""] (extra dropped, missing b empty), and
the output has one header plus two data lines. -/
theorem c7_witness :
    (write_csv ["a", "b"] csvRowsW).length = 3 ∧
    (write_csv ["a", "b"] csvRowsW)[1]? = some ["1", ""] := by
  have h := c7_write_csv_header_and_projection ["a", "b"] csvRowsW
  refine ⟨h.1, ?_⟩
  have h3 := (h.2.2.1 0 rowWithExtra rfl).1
  rw [h3]
  rfl

theorem countP_add_countP_not (p : α → Bool) (l : List α) :
    l.countP p + l.countP (fun a => !p a) = l.length := by
  induction l with
  | nil => rfl
  | cons a l ih =>
    cases hp : p a <;> simp [List.countP_cons, hp] <;> omega

/-- The batch loop, started from any accumulator state, attempts every
item in order and adds the number of succeeding respectively failing
items to the two counters. -/
theorem run_batch_aux (result : α → Bool) :
    ∀ (views att : List α) (s f : Nat),
      views.foldl (batchStep result) (att, s, f) =
        (att ++ views, s + views.countP (fun v => result v),
          f + views.countP (fun v => !result v)) := by
  intro views
  induction views with
  | nil => intro att s f; simp [List.countP_nil]
  | cons v rest ih =>
    intro att s f
    simp only [List.foldl_cons, batchStep]
    rw [ih]
    cases hv : result v <;>
      simp [hv, List.countP_cons] <;>
      omega

/-- C8: for every batch export, every item is attempted, in order (no
per-item failure aborts the rest); the success and failure counts sum to
the number of items; the failure count is exactly the number of items
whose export failed; and the command's exit code is nonzero iff at least
one item failed. -/
theorem c8_batch_export_partial_failure (result : α → Bool)
    (view_names : List α) :
    (run_batch_export result view_names).1 = view_names ∧
    (run_batch_export result view_names).2.1 +
      (run_batch_export result view_names).2.2 = view_names.length ∧
    (run_batch_export result view_names).2.2 =
      view_names.countP (fun v => !result v) ∧
    (batchExitCode result view_names ≠ 0 ↔
      ∃ v ∈ view_names, result v = false) := by
  have h : run_batch_export result view_names =
      (view_names, view_names.countP (fun v => result v),
        view_names.countP (fun v => !result v)) := by
    unfold run_batch_export
    rw [run_batch_aux]
    simp
  refine ⟨by rw [h], ?_, by rw [h], ?_⟩
  · rw [h]
    exact countP_add_countP_not (fun v => result v) view_names
  · rw [show batchExitCode result view_names =
      if 0 < view_names.countP (fun v => !result v) then 1 else 0 by
        unfold batchExitCode; rw [h]]
    by_cases hp : 0 < view_names.countP (fun v => !result v)
    · rw [if_pos hp]
      constructor
      · intro _
        obtain ⟨v, hv, hnv⟩ := List.countP_pos_iff.mp hp
        exact ⟨v, hv, by simpa using hnv⟩
      · intro _
        exact one_ne_zero
    · rw [if_neg hp]
      constructor
      · intro h0
        exact absurd rfl h0
      · rintro ⟨v, hv, hnv⟩
        exact absurd (List.countP_pos_iff.mpr ⟨v, hv, by simp [hnv]⟩) hp

/-- C8 witness: three targets of which exactly one ("dbo.Bad") fails: all
three are attempted, the counts sum to 3, and the exit code is
nonzero. -/
theorem c8_witness :
    (run_batch_export exportOutcomeW batchViewsW).1 = batchViewsW ∧
    (run_batch_export exportOutcomeW batchViewsW).2.1 +
      (run_batch_export exportOutcomeW batchViewsW).2.2 = 3 ∧
    batchExitCode exportOutcomeW batchViewsW ≠ 0 := by
  have h := c8_batch_export_partial_failure exportOutcomeW batchViewsW
  exact ⟨h.1, h.2.1, h.2.2.2.mpr ⟨"dbo.Bad", by decide, by decide⟩⟩

theorem keyMissing_iff (env : Env) (k : String) :
    keyMissing env k = true ↔ env k = none ∨ env k = some "" := by
  unfold keyMissing
  cases h : env k with
  | none => simp
  | some v => simp [beq_iff_eq]

theorem mem_missingKeys (env : Env) (required : List String) (k : String) :
    k ∈ missingKeys env required ↔
      k ∈ required ∧ (env k = none ∨ env k = some "") := by
  unfold missingKeys
  rw [List.mem_filter, keyMissing_iff]

theorem missingKeys_isEmpty (env : Env) (required : List String) :
    (missingKeys env required).isEmpty = true ↔
      ∀ k ∈ required, ¬(env k = none ∨ env k = some "") := by
  rw [List.isEmpty_iff, List.eq_nil_iff_forall_not_mem]
  constructor
  · intro h k hk hbad
    exact h k ((mem_missingKeys env required k).mpr ⟨hk, hbad⟩)
  · intro h k hk
    rw [mem_missingKeys] at hk
    exact h k hk.1 hk.2

/-- C9: a required key whose value is the empty string is treated exactly
like an absent key: each of the two `load_config`s fails iff some
required key is absent or empty, and the error it carries enumerates
precisely the required keys that are absent or empty. -/
theorem c9_load_config_required_keys (env : Env) :
    ((∃ e, load_config env = .error e) ↔
      ∃ k ∈ required_dremio, env k = none ∨ env k = some "") ∧
    (∀ e, load_config env = .error e →
      ∀ k, (k ∈ e ↔
        k ∈ required_dremio ∧ (env k = none ∨ env k = some ""))) ∧
    ((∃ e, load_config_sql env = .error e) ↔
      ∃ k ∈ required_sql, env k = none ∨ env k = some "") ∧
    (∀ e, load_config_sql env = .error e →
      ∀ k, (k ∈ e ↔
        k ∈ required_sql ∧ (env k = none ∨ env k = some ""))) := by
  refine ⟨?_, ?_, ?_, ?_⟩
  · constructor
    · rintro ⟨e, he⟩
      unfold load_config at he
      by_cases hm : (missingKeys env required_dremio).isEmpty
      · rw [if_pos hm] at he
        exact absurd he (by simp)
      · rw [missingKeys_isEmpty] at hm
        push_neg at hm
        obtain ⟨k, hk, hbad⟩ := hm
        exact ⟨k, hk, hbad⟩
    · rintro ⟨k, hk, hbad⟩
      have hm : ¬ (missingKeys env required_dremio).isEmpty = true := by
        intro hm
        rw [missingKeys_isEmpty] at hm
        exact hm k hk hbad
      exact ⟨missingKeys env required_dremio,
        by unfold load_config; rw [if_neg hm]⟩
  · intro e he k
    unfold load_config at he
    by_cases hm : (missingKeys env required_dremio).isEmpty
    · rw [if_pos hm] at he
      exact absurd he (by simp)
    · rw [if_neg hm] at he
      injection he with h2
      subst h2
      exact mem_missingKeys env required_dremio k
  · constructor
    · rintro ⟨e, he⟩
      unfold load_config_sql at he
      by_cases hm : (missingKeys env required_sql).isEmpty
      · rw [if_pos hm] at he
        exact absurd he (by simp)
      · rw [missingKeys_isEmpty] at hm
        push_neg at hm
        obtain ⟨k, hk, hbad⟩ := hm
        exact ⟨k, hk, hbad⟩
    · rintro ⟨k, hk, hbad⟩
      have hm : ¬ (missingKeys env required_sql).isEmpty = true := by
        intro hm
        rw [missingKeys_isEmpty] at hm
        exact hm k hk hbad
      exact ⟨missingKeys env required_sql,
        by unfold load_config_sql; rw [if_neg hm]⟩
  · intro e he k
    unfold load_config_sql at he
    by_cases hm : (missingKeys env required_sql).isEmpty
    · rw [if_pos hm] at he
      exact absurd he (by simp)
    · rw [if_neg hm] at he
      injection he with h2
      subst h2
      exact mem_missingKeys env required_sql k

/-- C9 witness: an env where DREMIO_BASE_URL is absent and DREMIO_API_KEY
is present but empty yields the error enumerating both keys, and the
empty-valued key is indeed counted as missing. -/
theorem c9_witness :
    "DREMIO_API_KEY" ∈ required_dremio ∧
      (envW "DREMIO_API_KEY" = none ∨ envW "DREMIO_API_KEY" = some "") := by
  have h := c9_load_config_required_keys envW
  exact (h.2.1 ["DREMIO_BASE_URL", "DREMIO_API_KEY"] rfl
    "DREMIO_API_KEY").mp (by decide)

theorem toNat_ofNat_lt {n : Nat} (h : n < 55296) :
    (Char.ofNat n).toNat = n := by
  simp [Char.ofNat, Char.toNat, Nat.isValidChar, h, Char.ofNatAux,
    UInt32.toNat, BitVec.toNat_ofNatLt]

/-- ASCII lowercasing neither produces nor removes a single quote. -/
theorem lowerAscii_eq_squote (c : Char) :
    lowerAscii c = squote ↔ c = squote := by
  constructor
  · intro h
    unfold lowerAscii at h
    split at h
    · exfalso
      rename_i hcond
      have h1 := congrArg Char.toNat h
      rw [toNat_ofNat_lt (by omega)] at h1
      have h2 : squote.toNat = 39 := by decide
      omega
    · exact h
  · intro h
    subst h
    decide

theorem count_map_lowerAscii (l : List Char) :
    (l.map lowerAscii).count squote = l.count squote := by
  induction l with
  | nil => rfl
  | cons c l ih =>
    simp only [List.map_cons, List.count_cons, ih]
    congr 1
    by_cases hc : c = squote
    · subst hc
      simp [show lowerAscii squote = squote by decide]
    · have h1 : lowerAscii c ≠ squote :=
        fun hl => hc ((lowerAscii_eq_squote c).mp hl)
      simp [beq_iff_eq, hc, h1]

theorem count_escapeQuotes (l : List Char) :
    (escapeQuotes l).count squote = 2 * l.count squote := by
  induction l with
  | nil => rfl
  | cons c l ih =>
    have hstep : escapeQuotes (c :: l) =
        (if c = squote then [squote, squote] else [c]) ++ escapeQuotes l := by
      simp [escapeQuotes]
    rw [hstep, List.count_append, ih, List.count_cons]
    by_cases hc : c = squote
    · subst hc
      rw [if_pos rfl]
      have h2 : ([squote, squote] : List Char).count squote = 2 := by decide
      rw [h2]
      simp [show (squote == squote) = true by decide]
      omega
    · rw [if_neg hc]
      have h0 : ([c] : List Char).count squote = 0 := by
        simp [List.count_singleton, beq_iff_eq, hc]
      rw [h0]
      simp only [beq_iff_eq, hc, if_false]
      omega

/-- C10: the SQL statement built by catalog search embeds the keyword
lowercased and with every single quote doubled; consequently the
statement contains exactly 4 + 4 * (quotes in the keyword) single-quote
characters — an even number for every input keyword, so the statement's
quoting stays balanced. -/
theorem c10_search_sql_quoting_balanced (kw : List Char) :
    (safe_keyword kw).count squote = 2 * kw.count squote ∧
    (search_sql kw).count squote = 4 + 4 * kw.count squote ∧
    Even ((search_sql kw).count squote) := by
  have hsafe : (safe_keyword kw).count squote = 2 * kw.count squote := by
    unfold safe_keyword
    rw [count_map_lowerAscii, count_escapeQuotes]
  have hp : ('%' == squote) = false := by decide
  have hs : (squote == squote) = true := by decide
  have hlike : ∀ kw2 : List Char,
      (likePattern kw2).count squote = 2 + (safe_keyword kw2).count squote := by
    intro kw2
    unfold likePattern
    simp [List.count_cons, List.count_append, hp, hs]
    omega
  have h1 : ("SELECT TABLE_SCHEMA, TABLE_NAME, TABLE_TYPE FROM INFORMATION_SCHEMA.\"TABLES\" WHERE LOWER(TABLE_NAME) LIKE ").data.count squote = 0 := by
    decide
  have h2 : (" OR LOWER(TABLE_SCHEMA) LIKE ").data.count squote = 0 := by
    decide
  have h3 : (" ORDER BY TABLE_SCHEMA, TABLE_NAME").data.count squote = 0 := by
    decide
  have hcount : (search_sql kw).count squote = 4 + 4 * kw.count squote := by
    unfold search_sql
    simp only [List.count_append]
    rw [h1, h2, h3, hlike, hsafe]
    omega
  exact ⟨hsafe, hcount,
    by rw [hcount]; exact ⟨2 + 2 * kw.count squote, by omega⟩⟩
